import Mathlib

/-!
Shallow embedding of the terminal text-selection engine in
`src/cascadia/TerminalCore/TerminalSelection.cpp`.

The selection state machine (anchors, pivot, expansion modes, block flag)
is translated directly from that file.  The coordinate-aware buffer and the
viewport/scroll owner are external collaborators of this component: their
operations (`CompareInBounds`, `IncrementInBounds`, `DecrementInBounds`,
`Clamp`, `GetWordStart`, `GetWordEnd`, `GetGlyphStart`, `GetGlyphEnd`,
`GetTextRects`, `GetText`, `_VisibleStartIndex`, `_GetVisibleViewport`) live
outside the given source; the coordinate arithmetic ones are modelled from
the interface contract the spec states for them, and the word/glyph/text
queries are kept abstract as fields of the buffer record.

Machine integers (`SHORT`) are modelled as `Int`; the claims under study
stay far from the 16-bit saturation bounds of `base::ClampSub`/`ClampAdd`.
-/

namespace TerminalCore

/-- A buffer/viewport coordinate: `COORD` with fields `X` and `Y`. -/
structure COORD where
  x : Int
  y : Int
deriving DecidableEq, Repr

/-- A per-row selection rectangle (`SMALL_RECT`). -/
structure SMALL_RECT where
  left : Int
  top : Int
  right : Int
  bottom : Int
deriving DecidableEq, Repr

/-- Result of the buffer text extraction (`TextBuffer::TextAndColor`);
its contents are opaque to the selection engine. -/
structure TextAndColor where
  text : String
deriving DecidableEq, Repr

/-- The `SelectionExpansion` granularity enum. -/
inductive SelectionExpansion where
  | Cell
  | Word
  | Line
  | Viewport
  | Buffer
deriving DecidableEq, Repr

/-- The `SelectionDirection` enum for `UpdateSelection`. -/
inductive SelectionDirection where
  | Left
  | Right
  | Up
  | Down
deriving DecidableEq, Repr

/-- An inclusive rectangular window over the buffer (`til::Viewport`):
`left`/`top` are the origin, `right`/`bottom` are `RightInclusive()` and
`BottomInclusive()`. -/
structure Viewport where
  left : Int
  top : Int
  right : Int
  bottom : Int
deriving DecidableEq, Repr

namespace Viewport

/-- Number of columns, `Width()`. -/
def width (v : Viewport) : Int :=
  v.right - v.left + 1

/-- Accessor `Origin()`: the top-left cell. -/
def origin (v : Viewport) : COORD :=
  ⟨v.left, v.top⟩

/-- Containment test `IsInBounds(pos)`: containment in the inclusive rectangle. -/
def IsInBounds (v : Viewport) (p : COORD) : Bool :=
  decide (v.left ≤ p.x ∧ p.x ≤ v.right ∧ v.top ≤ p.y ∧ p.y ≤ v.bottom)

/-- Modelled from the spec: `compare(a, b) → {<0, 0, >0}` under row-major
buffer order (`Viewport::CompareInBounds`, external to the given source):
the signed row-major distance from `second` to `first`. -/
def CompareInBounds (v : Viewport) (first second : COORD) : Int :=
  (first.y - second.y) * v.width + (first.x - second.x)

/-- Modelled from the spec: `incrementInBounds(point)` — move one cell
forward in row-major order, wrapping across rows and saturating at the
bottom-right corner (`Viewport::IncrementInBounds`, external to the given
source). -/
def IncrementInBounds (v : Viewport) (p : COORD) : COORD :=
  if p.x = v.right ∧ p.y = v.bottom then p
  else if p.x = v.right then ⟨v.left, p.y + 1⟩
  else ⟨p.x + 1, p.y⟩

/-- Modelled from the spec: `decrementInBounds(point)` — move one cell
backward in row-major order, wrapping across rows and saturating at the
origin (`Viewport::DecrementInBounds`, external to the given source). -/
def DecrementInBounds (v : Viewport) (p : COORD) : COORD :=
  if p.x = v.left ∧ p.y = v.top then p
  else if p.x = v.left then ⟨v.right, p.y - 1⟩
  else ⟨p.x - 1, p.y⟩

/-- Modelled from the spec: `clamp(point)` — project an out-of-range point
onto the nearest valid cell (`Viewport::Clamp`, external to the given
source). -/
def Clamp (v : Viewport) (p : COORD) : COORD :=
  ⟨max v.left (min p.x v.right), max v.top (min p.y v.bottom)⟩

end Viewport

/-- The coordinate-aware buffer collaborator.  `size` answers `GetSize()`;
the word/glyph boundary queries and the text/rectangle extraction routines
are abstract functions (their algorithms are outside this component). -/
structure TextBuffer where
  size : Viewport
  GetWordStart : COORD → String → COORD
  GetWordEnd : COORD → String → COORD
  GetGlyphStart : COORD → COORD
  GetGlyphEnd : COORD → COORD
  GetTextRects : COORD → COORD → Bool → Bool → Except String (List SMALL_RECT)
  GetText : Bool → Bool → List SMALL_RECT → Bool → TextAndColor

/-- The `SelectionAnchors` value: start, end and pivot, absolute buffer coordinates.
`SelectionAnchors{}` value-initialises all three to `(0,0)`. -/
structure SelectionAnchors where
  start : COORD
  end_ : COORD
  pivot : COORD
deriving DecidableEq, Repr

/-- The terminal-instance state the selection engine touches.  `selection`
is `std::optional<SelectionAnchors> _selection`; `mutableViewportTop` and
`mutableViewportHeight` stand for the `_mutableViewport` data the shown
code reads; `scrollOffset` is `_scrollOffset`. -/
structure Terminal where
  buffer : TextBuffer
  selection : Option SelectionAnchors
  multiClickSelectionMode : SelectionExpansion
  blockSelection : Bool
  trimBlockSelection : Bool
  wordDelimiters : String
  mutableViewportTop : Int
  mutableViewportHeight : Int
  scrollOffset : Int

namespace Terminal

/-- Modelled from the spec: `_VisibleStartIndex()` (external to the given
source) — the absolute buffer row at the top of the visible window,
`max(0, mutableViewport.Top() - scrollOffset)`. -/
def VisibleStartIndex (t : Terminal) : Int :=
  max 0 (t.mutableViewportTop - t.scrollOffset)

/-- Modelled from the spec: `_GetVisibleViewport()` (external to the given
source) — the currently visible window over the buffer: full buffer width,
`mutableViewportHeight` rows starting at `VisibleStartIndex`. -/
def GetVisibleViewport (t : Terminal) : Viewport :=
  { left := t.buffer.size.left
    top := t.VisibleStartIndex
    right := t.buffer.size.right
    bottom := t.VisibleStartIndex + t.mutableViewportHeight - 1 }

/-- Translation of `Terminal::_ConvertToBufferCell`: viewport-relative point to absolute
buffer point, clamped into buffer bounds. -/
def ConvertToBufferCell (t : Terminal) (viewportPos : COORD) : COORD :=
  let yPos := t.VisibleStartIndex + viewportPos.y
  let bufferPos : COORD := ⟨viewportPos.x, yPos⟩
  t.buffer.size.Clamp bufferPos

/-- Translation of `Terminal::IsSelectionActive`. -/
def IsSelectionActive (t : Terminal) : Bool :=
  t.selection.isSome

/-- Translation of `Terminal::IsBlockSelection`. -/
def IsBlockSelection (t : Terminal) : Bool :=
  t.blockSelection

/-- Translation of `Terminal::SetBlockSelection`. -/
def SetBlockSelection (t : Terminal) (isEnabled : Bool) : Terminal :=
  { t with blockSelection := isEnabled }

/-- Translation of `Terminal::ClearSelection`. -/
def ClearSelection (t : Terminal) : Terminal :=
  { t with selection := none }

/-- Translation of `Terminal::_PivotSelection`, with the pivot (read from `_selection` in
the source) passed explicitly: orders the target against the pivot and
reports which side the target landed on. -/
def PivotSelection (t : Terminal) (pivot targetPos : COORD) :
    COORD × COORD × Bool :=
  let targetStart := t.buffer.size.CompareInBounds targetPos pivot ≤ 0
  if targetStart then (targetPos, pivot, true)
  else (pivot, targetPos, false)

/-- Translation of `Terminal::_ExpandSelectionAnchors`: expand a candidate anchor pair by
the active `_multiClickSelectionMode`. -/
def ExpandSelectionAnchors (t : Terminal) (anchors : COORD × COORD) :
    COORD × COORD :=
  let start := anchors.1
  let e := anchors.2
  let bufferSize := t.buffer.size
  match t.multiClickSelectionMode with
  | .Line => (⟨bufferSize.left, start.y⟩, ⟨bufferSize.right, e.y⟩)
  | .Word => (t.buffer.GetWordStart start t.wordDelimiters,
              t.buffer.GetWordEnd e t.wordDelimiters)
  | _ => (start, e)

/-- Translation of `Terminal::SetSelectionEnd`.  The `Bool` in the result records whether
the illegal-state diagnostic (`LOG_HR(E_ILLEGAL_STATE_CHANGE)`) was
emitted. -/
def SetSelectionEnd (t : Terminal) (viewportPos : COORD)
    (newExpansionMode : Option SelectionExpansion) : Terminal × Bool :=
  match t.selection with
  | none => (t, true)
  | some sel =>
    let textBufferPos := t.ConvertToBufferCell viewportPos
    let t := { t with multiClickSelectionMode :=
                 newExpansionMode.getD t.multiClickSelectionMode }
    let pivoted := t.PivotSelection sel.pivot textBufferPos
    let targetStart := pivoted.2.2
    let expandedAnchors := t.ExpandSelectionAnchors (pivoted.1, pivoted.2.1)
    if newExpansionMode.isSome then
      let sel' :=
        if targetStart then
          { sel with start := expandedAnchors.1, end_ := sel.pivot }
        else
          { sel with end_ := expandedAnchors.2, start := sel.pivot }
      ({ t with selection := some sel' }, false)
    else
      let sel' := { sel with start := expandedAnchors.1,
                             end_ := expandedAnchors.2 }
      ({ t with selection := some sel' }, false)

/-- Translation of `Terminal::SetSelectionAnchor`: begin a Cell-mode gesture at
`viewportPos`, then re-pin `start` to the pivot. -/
def SetSelectionAnchor (t : Terminal) (viewportPos : COORD) : Terminal :=
  let pivot := t.ConvertToBufferCell viewportPos
  let t := { t with selection := some ⟨⟨0, 0⟩, ⟨0, 0⟩, pivot⟩,
                    multiClickSelectionMode := .Cell }
  let t := (t.SetSelectionEnd viewportPos none).1
  match t.selection with
  | some sel => { t with selection := some { sel with start := sel.pivot } }
  | none => t

/-- Translation of `Terminal::MultiClickSelection`: begin a gesture with the supplied
granularity, then re-pin the pivot to the resulting `start`. -/
def MultiClickSelection (t : Terminal) (viewportPos : COORD)
    (expansionMode : SelectionExpansion) : Terminal :=
  let pivot := t.ConvertToBufferCell viewportPos
  let t := { t with selection := some ⟨⟨0, 0⟩, ⟨0, 0⟩, pivot⟩,
                    multiClickSelectionMode := expansionMode }
  let t := (t.SetSelectionEnd viewportPos none).1
  match t.selection with
  | some sel => { t with selection := some { sel with pivot := sel.start } }
  | none => t

/-- Translation of `Terminal::MovingStart`: which endpoint a directional move will take;
`none` models the unguarded read of the absent `_selection`. -/
def MovingStart (t : Terminal) : Option Bool :=
  t.selection.map fun sel =>
    if sel.start = sel.pivot then false else true

/-- Translation of `Terminal::_MoveByChar`. -/
def MoveByChar (t : Terminal) (direction : SelectionDirection)
    (pos : COORD) : COORD :=
  match direction with
  | .Left => t.buffer.GetGlyphStart (t.buffer.size.DecrementInBounds pos)
  | .Right => t.buffer.GetGlyphEnd (t.buffer.size.IncrementInBounds pos)
  | .Up =>
    let bufferSize := t.buffer.size
    ⟨pos.x, max bufferSize.top (min (pos.y - 1) bufferSize.bottom)⟩
  | .Down =>
    let bufferSize := t.buffer.size
    ⟨pos.x, max bufferSize.top (min (pos.y + 1) bufferSize.bottom)⟩

/-- Translation of `Terminal::_MoveByWord`, with the pivot (read from `_selection` in the
source) passed explicitly. -/
def MoveByWord (t : Terminal) (pivot : COORD)
    (direction : SelectionDirection) (pos : COORD) : COORD :=
  match direction with
  | .Left =>
    let wordStartPos := t.buffer.GetWordStart pos t.wordDelimiters
    if t.buffer.size.CompareInBounds pivot pos < 0 then
      t.buffer.size.DecrementInBounds wordStartPos
    else if wordStartPos = pos then
      t.buffer.GetWordStart (t.buffer.size.DecrementInBounds pos)
        t.wordDelimiters
    else
      wordStartPos
  | .Right =>
    let wordEndPos := t.buffer.GetWordEnd pos t.wordDelimiters
    if t.buffer.size.CompareInBounds pos pivot < 0 then
      t.buffer.size.IncrementInBounds
        (t.buffer.GetWordEnd pos t.wordDelimiters)
    else if wordEndPos = pos then
      t.buffer.GetWordEnd (t.buffer.size.IncrementInBounds pos)
        t.wordDelimiters
    else
      wordEndPos
  | .Up =>
    t.buffer.GetWordStart (t.MoveByChar .Up pos) t.wordDelimiters
  | .Down =>
    t.buffer.GetWordEnd (t.MoveByChar .Down pos) t.wordDelimiters

/-- Translation of `Terminal::_MoveByViewport`. -/
def MoveByViewport (t : Terminal) (direction : SelectionDirection)
    (pos : COORD) : COORD :=
  let bufferSize := t.buffer.size
  match direction with
  | .Left => ⟨bufferSize.left, pos.y⟩
  | .Right => ⟨bufferSize.right, pos.y⟩
  | .Up =>
    let newY := pos.y - t.mutableViewportHeight
    if newY < bufferSize.top then bufferSize.origin else ⟨pos.x, newY⟩
  | .Down =>
    let newY := pos.y + t.mutableViewportHeight
    if newY > bufferSize.bottom then ⟨bufferSize.right, bufferSize.bottom⟩
    else ⟨pos.x, newY⟩

/-- Translation of `Terminal::_MoveByBuffer`. -/
def MoveByBuffer (t : Terminal) (direction : SelectionDirection)
    (pos : COORD) : COORD :=
  let bufferSize := t.buffer.size
  match direction with
  | .Left | .Up => bufferSize.origin
  | .Right | .Down => ⟨bufferSize.right, bufferSize.bottom⟩

/-- Step 1 and 2 of `Terminal::UpdateSelection`: pick the non-pivot
endpoint and move it by the requested policy. -/
def moveTarget (t : Terminal) (sel : SelectionAnchors)
    (direction : SelectionDirection) (mode : SelectionExpansion) : COORD :=
  let targetPos := if sel.start = sel.pivot then sel.end_ else sel.start
  match mode with
  | .Cell => t.MoveByChar direction targetPos
  | .Word => t.MoveByWord sel.pivot direction targetPos
  | .Viewport => t.MoveByViewport direction targetPos
  | .Buffer => t.MoveByBuffer direction targetPos
  | .Line => targetPos

/-- Translation of `Terminal::UpdateSelection`.  `none` models the unguarded read of the
absent `_selection`; on success the `Bool` records whether
`_NotifyScrollEvent` fired. -/
def UpdateSelection (t : Terminal) (direction : SelectionDirection)
    (mode : SelectionExpansion) : Option (Terminal × Bool) :=
  t.selection.map fun sel =>
    let targetPos := t.moveTarget sel direction mode
    let pivoted := t.PivotSelection sel.pivot targetPos
    let sel' := { sel with start := pivoted.1, end_ := pivoted.2.1 }
    let t' := { t with selection := some sel' }
    let viewport := t.GetVisibleViewport
    if viewport.IsInBounds targetPos then
      (t', false)
    else
      let amtAboveView := viewport.top - targetPos.y
      if amtAboveView > 0 then
        ({ t' with scrollOffset := t'.scrollOffset + amtAboveView }, true)
      else
        let amtBelowView := targetPos.y - viewport.bottom
        ({ t' with scrollOffset := t'.scrollOffset - amtBelowView }, true)

/-- Translation of `Terminal::_GetSelectionRects`: empty without a selection; on a buffer
failure the exception is caught (`CATCH_LOG`) and the empty vector is
returned. -/
def GetSelectionRects (t : Terminal) : List SMALL_RECT :=
  match t.selection with
  | none => []
  | some sel =>
    match t.buffer.GetTextRects sel.start sel.end_ t.blockSelection false with
    | .ok r => r
    | .error _ => []

/-- Translation of `Terminal::RetrieveSelectedTextFromBuffer`. -/
def RetrieveSelectedTextFromBuffer (t : Terminal) (singleLine : Bool) :
    TextAndColor :=
  let selectionRects := t.GetSelectionRects
  let includeCRLF := !singleLine || t.blockSelection
  let trimTrailingWhitespace :=
    !singleLine && (!t.blockSelection || t.trimBlockSelection)
  let formatWrappedRows := t.blockSelection
  t.buffer.GetText includeCRLF trimTrailingWhitespace selectionRects
    formatWrappedRows

end Terminal


/-! ### Specification predicates and auxiliary definitions -/

namespace Viewport

/-- A buffer size descriptor is well-formed when its inclusive bounds are
ordered. -/
def WF (v : Viewport) : Prop :=
  v.left ≤ v.right ∧ v.top ≤ v.bottom

/-- Propositional containment in the inclusive rectangle. -/
def InBounds (v : Viewport) (p : COORD) : Prop :=
  v.left ≤ p.x ∧ p.x ≤ v.right ∧ v.top ≤ p.y ∧ p.y ≤ v.bottom

end Viewport

/-- Contract of the word-boundary queries of the buffer: the word start is
never after its argument and the word end never before it, in buffer
order. -/
def TextBuffer.WordBoundsHyp (b : TextBuffer) (d : String) : Prop :=
  ∀ p : COORD,
    b.size.CompareInBounds (b.GetWordStart p d) p ≤ 0 ∧
    b.size.CompareInBounds p (b.GetWordEnd p d) ≤ 0

namespace Terminal

/-- The spec invariant: whenever a selection is active,
`compare(start, end) ≤ 0`. -/
def SelInv (t : Terminal) : Prop :=
  ∀ sel : SelectionAnchors, t.selection = some sel →
    t.buffer.size.CompareInBounds sel.start sel.end_ ≤ 0

/-- State well-formedness: the pivot of an active selection lies in buffer
bounds (it is always produced by `_ConvertToBufferCell`, which clamps). -/
def PivotWF (t : Terminal) : Prop :=
  ∀ sel : SelectionAnchors, t.selection = some sel →
    t.buffer.size.InBounds sel.pivot

/-- The pivot of the active selection, if any. -/
def pivotOf (t : Terminal) : Option COORD :=
  t.selection.map fun sel => sel.pivot

end Terminal

/-- One extend/move call within a selection gesture, for the pivot-stability
statement. -/
inductive GestureStep where
  | setEnd (vp : COORD) (om : Option SelectionExpansion)
  | update (d : SelectionDirection) (m : SelectionExpansion)

/-- Apply one gesture step to the terminal state (`UpdateSelection` requires
an active selection; an inactive state is left unchanged by the step). -/
def Terminal.applyStep (t : Terminal) (s : GestureStep) : Terminal :=
  match s with
  | .setEnd vp om => (t.SetSelectionEnd vp om).1
  | .update d m =>
    match t.UpdateSelection d m with
    | some (t', _) => t'
    | none => t

/-! ### Concrete instances for scenarios and witnesses -/

/-- An 80-column, 24-row buffer with trivial word/glyph structure (every
cell is its own word and glyph), for concrete scenarios. -/
def bufDemo : TextBuffer :=
  { size := ⟨0, 0, 79, 23⟩
    GetWordStart := fun p _ => p
    GetWordEnd := fun p _ => p
    GetGlyphStart := fun p => p
    GetGlyphEnd := fun p => p
    GetTextRects := fun _ _ _ _ => Except.ok []
    GetText := fun _ _ _ _ => ⟨""⟩ }

/-- A terminal over `bufDemo` showing rows 0 to 23, with no selection. -/
def termDemo : Terminal :=
  { buffer := bufDemo
    selection := none
    multiClickSelectionMode := .Cell
    blockSelection := false
    trimBlockSelection := false
    wordDelimiters := " "
    mutableViewportTop := 0
    mutableViewportHeight := 24
    scrollOffset := 0 }

/-- The demo terminal with an active selection from (5,2) to (10,2) pivoted
at (5,2). -/
def termActive : Terminal :=
  { termDemo with selection := some ⟨⟨5, 2⟩, ⟨10, 2⟩, ⟨5, 2⟩⟩ }

/-- A 2-by-2 buffer with trivial word structure. -/
def bufTiny : TextBuffer :=
  { bufDemo with size := ⟨0, 0, 1, 1⟩ }

/-- A terminal over `bufTiny` whose selection sits at the bottom-right
corner of the buffer. -/
def termStall : Terminal :=
  { buffer := bufTiny
    selection := some ⟨⟨1, 1⟩, ⟨1, 1⟩, ⟨1, 1⟩⟩
    multiClickSelectionMode := .Word
    blockSelection := false
    trimBlockSelection := false
    wordDelimiters := " "
    mutableViewportTop := 0
    mutableViewportHeight := 2
    scrollOffset := 0 }

/-- A buffer whose rectangle computation always fails. -/
def bufErr : TextBuffer :=
  { bufDemo with
    GetTextRects := fun _ _ _ _ => Except.error "GetTextRects failure" }

/-- A terminal with an active selection over the failing buffer. -/
def termErr : Terminal :=
  { termDemo with buffer := bufErr
                  selection := some ⟨⟨0, 0⟩, ⟨3, 0⟩, ⟨0, 0⟩⟩ }

/-- A 100-row buffer, taller than the 24-row visible viewport. -/
def bufTall : TextBuffer :=
  { bufDemo with size := ⟨0, 0, 79, 99⟩ }

/-- A terminal over `bufTall` whose selection end sits on the last visible
row (row 23). -/
def termTall : Terminal :=
  { termDemo with buffer := bufTall
                  selection := some ⟨⟨5, 2⟩, ⟨10, 23⟩, ⟨5, 2⟩⟩ }

/-! ### Lemmas about the buffer-interface operations -/

namespace Viewport

theorem compare_add (v : Viewport) (a b c : COORD) :
    v.CompareInBounds a c = v.CompareInBounds a b + v.CompareInBounds b c := by
  simp only [CompareInBounds]
  ring

theorem compare_self (v : Viewport) (a : COORD) :
    v.CompareInBounds a a = 0 := by
  simp [CompareInBounds]

theorem compare_swap (v : Viewport) (a b : COORD) :
    v.CompareInBounds b a = -v.CompareInBounds a b := by
  simp only [CompareInBounds]
  ring

theorem clamp_inBounds (v : Viewport) (hWF : v.WF) (p : COORD) :
    v.InBounds (v.Clamp p) := by
  obtain ⟨h1, h2⟩ := hWF
  simp only [Clamp, InBounds]
  omega

theorem increment_lt (v : Viewport) (p : COORD)
    (hin : v.InBounds p) (hc : ¬(p.x = v.right ∧ p.y = v.bottom)) :
    v.CompareInBounds p (v.IncrementInBounds p) < 0 := by
  obtain ⟨h1, h2, h3, h4⟩ := hin
  rw [IncrementInBounds, if_neg hc]
  by_cases hx : p.x = v.right
  · rw [if_pos hx]
    simp only [CompareInBounds, width]
    have hfac : p.y - (p.y + 1) = -1 := by ring
    rw [hfac]
    omega
  · rw [if_neg hx]
    simp only [CompareInBounds, width]
    have hfac : p.y - p.y = 0 := by ring
    rw [hfac]
    omega

end Viewport

/-! ### Lemmas about the selection operations -/

namespace Terminal

theorem convertToBufferCell_inBounds (t : Terminal) (hWF : t.buffer.size.WF)
    (vp : COORD) : t.buffer.size.InBounds (t.ConvertToBufferCell vp) :=
  Viewport.clamp_inBounds t.buffer.size hWF _

theorem pivotSelection_fst_le (t : Terminal) (pivot tgt : COORD) :
    t.buffer.size.CompareInBounds (t.PivotSelection pivot tgt).1
      (t.PivotSelection pivot tgt).2.1 ≤ 0 := by
  by_cases h : t.buffer.size.CompareInBounds tgt pivot ≤ 0
  · simp [PivotSelection, h]
  · simp only [PivotSelection, if_neg h]
    have := Viewport.compare_swap t.buffer.size tgt pivot
    push_neg at h
    linarith

theorem pivotSelection_inBounds (t : Terminal) (pivot tgt : COORD)
    (hp : t.buffer.size.InBounds pivot) (ht : t.buffer.size.InBounds tgt) :
    t.buffer.size.InBounds (t.PivotSelection pivot tgt).1 ∧
    t.buffer.size.InBounds (t.PivotSelection pivot tgt).2.1 := by
  by_cases h : t.buffer.size.CompareInBounds tgt pivot ≤ 0 <;>
    simp [PivotSelection, h, hp, ht]

theorem expand_fst_le (t : Terminal)
    (hword : t.buffer.WordBoundsHyp t.wordDelimiters) (s e : COORD)
    (hs : t.buffer.size.left ≤ s.x) :
    t.buffer.size.CompareInBounds (t.ExpandSelectionAnchors (s, e)).1 s ≤ 0 := by
  cases h : t.multiClickSelectionMode
  case Cell => simp [ExpandSelectionAnchors, h, Viewport.compare_self]
  case Viewport => simp [ExpandSelectionAnchors, h, Viewport.compare_self]
  case Buffer => simp [ExpandSelectionAnchors, h, Viewport.compare_self]
  case Word =>
    simp only [ExpandSelectionAnchors, h]
    exact (hword s).1
  case Line =>
    simp only [ExpandSelectionAnchors, h, Viewport.CompareInBounds]
    simp
    omega

theorem expand_snd_ge (t : Terminal)
    (hword : t.buffer.WordBoundsHyp t.wordDelimiters) (s e : COORD)
    (he : e.x ≤ t.buffer.size.right) :
    t.buffer.size.CompareInBounds e (t.ExpandSelectionAnchors (s, e)).2 ≤ 0 := by
  cases h : t.multiClickSelectionMode
  case Cell => simp [ExpandSelectionAnchors, h, Viewport.compare_self]
  case Viewport => simp [ExpandSelectionAnchors, h, Viewport.compare_self]
  case Buffer => simp [ExpandSelectionAnchors, h, Viewport.compare_self]
  case Word =>
    simp only [ExpandSelectionAnchors, h]
    exact (hword e).2
  case Line =>
    simp only [ExpandSelectionAnchors, h, Viewport.CompareInBounds]
    simp
    omega

theorem setSelectionEnd_none_sel (t : Terminal) (sel : SelectionAnchors)
    (vp : COORD) (h : t.selection = some sel) :
    (t.SetSelectionEnd vp none).1.selection =
      some { sel with
        start := (t.ExpandSelectionAnchors
          ((t.PivotSelection sel.pivot (t.ConvertToBufferCell vp)).1,
           (t.PivotSelection sel.pivot (t.ConvertToBufferCell vp)).2.1)).1,
        end_ := (t.ExpandSelectionAnchors
          ((t.PivotSelection sel.pivot (t.ConvertToBufferCell vp)).1,
           (t.PivotSelection sel.pivot (t.ConvertToBufferCell vp)).2.1)).2 } := by
  simp only [SetSelectionEnd, h]
  rfl

theorem setSelectionEnd_override_target_sel (t : Terminal)
    (sel : SelectionAnchors) (vp : COORD) (m : SelectionExpansion)
    (h : t.selection = some sel)
    (hcmp : t.buffer.size.CompareInBounds (t.ConvertToBufferCell vp)
      sel.pivot ≤ 0) :
    (t.SetSelectionEnd vp (some m)).1.selection =
      some { sel with
        start := (({ t with multiClickSelectionMode := m
                   } : Terminal).ExpandSelectionAnchors
          (t.ConvertToBufferCell vp, sel.pivot)).1,
        end_ := sel.pivot } := by
  simp only [SetSelectionEnd, h, PivotSelection]
  simp [hcmp]

theorem setSelectionEnd_override_pivot_sel (t : Terminal)
    (sel : SelectionAnchors) (vp : COORD) (m : SelectionExpansion)
    (h : t.selection = some sel)
    (hcmp : ¬ t.buffer.size.CompareInBounds (t.ConvertToBufferCell vp)
      sel.pivot ≤ 0) :
    (t.SetSelectionEnd vp (some m)).1.selection =
      some { sel with
        start := sel.pivot,
        end_ := (({ t with multiClickSelectionMode := m
                  } : Terminal).ExpandSelectionAnchors
          (sel.pivot, t.ConvertToBufferCell vp)).2 } := by
  simp only [SetSelectionEnd, h, PivotSelection]
  simp [hcmp]

theorem setSelectionEnd_buffer (t : Terminal) (vp : COORD)
    (om : Option SelectionExpansion) :
    (t.SetSelectionEnd vp om).1.buffer = t.buffer := by
  cases hsel : t.selection
  · simp [SetSelectionEnd, hsel]
  · cases om
    · simp only [SetSelectionEnd, hsel]
      rfl
    · simp only [SetSelectionEnd, hsel]
      split <;> rfl

theorem setSelectionAnchor_sel (t : Terminal) (vp : COORD) :
    (t.SetSelectionAnchor vp).selection =
      some ⟨t.ConvertToBufferCell vp, t.ConvertToBufferCell vp,
            t.ConvertToBufferCell vp⟩ := by
  simp [SetSelectionAnchor, SetSelectionEnd, PivotSelection,
    ExpandSelectionAnchors, ConvertToBufferCell, VisibleStartIndex,
    Viewport.compare_self]

theorem setSelectionAnchor_buffer (t : Terminal) (vp : COORD) :
    (t.SetSelectionAnchor vp).buffer = t.buffer := by
  simp [SetSelectionAnchor, SetSelectionEnd, PivotSelection,
    ExpandSelectionAnchors, ConvertToBufferCell, VisibleStartIndex,
    Viewport.compare_self]

theorem multiClickSelection_sel (t : Terminal) (vp : COORD)
    (m : SelectionExpansion) :
    (t.MultiClickSelection vp m).selection =
      some ⟨(({ t with multiClickSelectionMode := m
              } : Terminal).ExpandSelectionAnchors
               (t.ConvertToBufferCell vp, t.ConvertToBufferCell vp)).1,
            (({ t with multiClickSelectionMode := m
              } : Terminal).ExpandSelectionAnchors
               (t.ConvertToBufferCell vp, t.ConvertToBufferCell vp)).2,
            (({ t with multiClickSelectionMode := m
              } : Terminal).ExpandSelectionAnchors
               (t.ConvertToBufferCell vp, t.ConvertToBufferCell vp)).1⟩ := by
  simp [MultiClickSelection, SetSelectionEnd, PivotSelection,
    ExpandSelectionAnchors, ConvertToBufferCell, VisibleStartIndex,
    Viewport.compare_self]

theorem multiClickSelection_buffer (t : Terminal) (vp : COORD)
    (m : SelectionExpansion) :
    (t.MultiClickSelection vp m).buffer = t.buffer := by
  simp [MultiClickSelection, SetSelectionEnd, PivotSelection,
    ExpandSelectionAnchors, ConvertToBufferCell, VisibleStartIndex,
    Viewport.compare_self]

theorem updateSelection_isSome (t : Terminal) (d : SelectionDirection)
    (m : SelectionExpansion) :
    (t.UpdateSelection d m).isSome = t.selection.isSome := by
  cases h : t.selection <;> simp [UpdateSelection, h]

theorem updateSelection_sel (t : Terminal) (sel : SelectionAnchors)
    (d : SelectionDirection) (m : SelectionExpansion)
    (h : t.selection = some sel) (t' : Terminal) (n : Bool)
    (h' : t.UpdateSelection d m = some (t', n)) :
    t'.selection = some { sel with
      start := (t.PivotSelection sel.pivot (t.moveTarget sel d m)).1,
      end_ := (t.PivotSelection sel.pivot (t.moveTarget sel d m)).2.1 } ∧
    t'.buffer = t.buffer := by
  rw [UpdateSelection, h] at h'
  simp only [Option.map_some'] at h'
  split at h'
  · injection h' with h1
    injection h1 with ha hb
    subst ha
    simp
  · split at h'
    · injection h' with h1
      injection h1 with ha hb
      subst ha
      simp
    · injection h' with h1
      injection h1 with ha hb
      subst ha
      simp

theorem setSelectionEnd_selInv (t : Terminal) (vp : COORD)
    (om : Option SelectionExpansion) (hWF : t.buffer.size.WF)
    (hword : t.buffer.WordBoundsHyp t.wordDelimiters)
    (hpivot : t.PivotWF) :
    ((t.SetSelectionEnd vp om).1).SelInv := by
  cases hsel : t.selection with
  | none =>
    intro sel' h'
    simp only [SetSelectionEnd, hsel] at h'
    simp at h'
  | some sel =>
    have hc := convertToBufferCell_inBounds t hWF vp
    have hp := hpivot sel hsel
    intro sel' h'
    rw [setSelectionEnd_buffer]
    cases om with
    | none =>
      rw [setSelectionEnd_none_sel t sel vp hsel] at h'
      injection h' with h''
      subst h''
      obtain ⟨hP1, hP2⟩ :=
        pivotSelection_inBounds t sel.pivot (t.ConvertToBufferCell vp) hp hc
      have h1 := expand_fst_le t hword
        (t.PivotSelection sel.pivot (t.ConvertToBufferCell vp)).1
        (t.PivotSelection sel.pivot (t.ConvertToBufferCell vp)).2.1 hP1.1
      have h3 := expand_snd_ge t hword
        (t.PivotSelection sel.pivot (t.ConvertToBufferCell vp)).1
        (t.PivotSelection sel.pivot (t.ConvertToBufferCell vp)).2.1 hP2.2.1
      have h2 := pivotSelection_fst_le t sel.pivot (t.ConvertToBufferCell vp)
      have ca1 := Viewport.compare_add t.buffer.size
        (t.ExpandSelectionAnchors
          ((t.PivotSelection sel.pivot (t.ConvertToBufferCell vp)).1,
           (t.PivotSelection sel.pivot (t.ConvertToBufferCell vp)).2.1)).1
        (t.PivotSelection sel.pivot (t.ConvertToBufferCell vp)).1
        (t.ExpandSelectionAnchors
          ((t.PivotSelection sel.pivot (t.ConvertToBufferCell vp)).1,
           (t.PivotSelection sel.pivot (t.ConvertToBufferCell vp)).2.1)).2
      have ca2 := Viewport.compare_add t.buffer.size
        (t.PivotSelection sel.pivot (t.ConvertToBufferCell vp)).1
        (t.PivotSelection sel.pivot (t.ConvertToBufferCell vp)).2.1
        (t.ExpandSelectionAnchors
          ((t.PivotSelection sel.pivot (t.ConvertToBufferCell vp)).1,
           (t.PivotSelection sel.pivot (t.ConvertToBufferCell vp)).2.1)).2
      linarith
    | some m =>
      by_cases hcmp : t.buffer.size.CompareInBounds
          (t.ConvertToBufferCell vp) sel.pivot ≤ 0
      · rw [setSelectionEnd_override_target_sel t sel vp m hsel hcmp] at h'
        injection h' with h''
        subst h''
        have h1 : t.buffer.size.CompareInBounds
            ((({ t with multiClickSelectionMode := m
               } : Terminal).ExpandSelectionAnchors
              (t.ConvertToBufferCell vp, sel.pivot)).1)
            (t.ConvertToBufferCell vp) ≤ 0 :=
          expand_fst_le { t with multiClickSelectionMode := m } hword
            (t.ConvertToBufferCell vp) sel.pivot hc.1
        have ca := Viewport.compare_add t.buffer.size
          ((({ t with multiClickSelectionMode := m
             } : Terminal).ExpandSelectionAnchors
            (t.ConvertToBufferCell vp, sel.pivot)).1)
          (t.ConvertToBufferCell vp) sel.pivot
        simp only []
        linarith
      · rw [setSelectionEnd_override_pivot_sel t sel vp m hsel hcmp] at h'
        injection h' with h''
        subst h''
        have h2 : t.buffer.size.CompareInBounds (t.ConvertToBufferCell vp)
            ((({ t with multiClickSelectionMode := m
               } : Terminal).ExpandSelectionAnchors
              (sel.pivot, t.ConvertToBufferCell vp)).2) ≤ 0 :=
          expand_snd_ge { t with multiClickSelectionMode := m } hword
            sel.pivot (t.ConvertToBufferCell vp) hc.2.1
        have hswap := Viewport.compare_swap t.buffer.size
          (t.ConvertToBufferCell vp) sel.pivot
        have ca := Viewport.compare_add t.buffer.size sel.pivot
          (t.ConvertToBufferCell vp)
          ((({ t with multiClickSelectionMode := m
             } : Terminal).ExpandSelectionAnchors
            (sel.pivot, t.ConvertToBufferCell vp)).2)
        push_neg at hcmp
        simp only []
        linarith

theorem setSelectionEnd_pivotOf (t : Terminal) (vp : COORD)
    (om : Option SelectionExpansion) :
    ((t.SetSelectionEnd vp om).1).pivotOf = t.pivotOf := by
  cases hsel : t.selection with
  | none => simp [SetSelectionEnd, hsel]
  | some sel =>
    cases om with
    | none =>
      simp [pivotOf, setSelectionEnd_none_sel t sel vp hsel, hsel]
    | some m =>
      by_cases hcmp : t.buffer.size.CompareInBounds
          (t.ConvertToBufferCell vp) sel.pivot ≤ 0
      · simp [pivotOf,
          setSelectionEnd_override_target_sel t sel vp m hsel hcmp, hsel]
      · simp [pivotOf,
          setSelectionEnd_override_pivot_sel t sel vp m hsel hcmp, hsel]

theorem updateSelection_pivotOf (t : Terminal) (d : SelectionDirection)
    (m : SelectionExpansion) (t' : Terminal) (n : Bool)
    (h' : t.UpdateSelection d m = some (t', n)) :
    t'.pivotOf = t.pivotOf := by
  cases hsel : t.selection with
  | none =>
    rw [UpdateSelection, hsel] at h'
    simp at h'
  | some sel =>
    obtain ⟨hsel', _⟩ := updateSelection_sel t sel d m hsel t' n h'
    simp [pivotOf, hsel', hsel]

theorem applyStep_pivotOf (t : Terminal) (s : GestureStep) :
    (t.applyStep s).pivotOf = t.pivotOf := by
  cases s with
  | setEnd vp om => exact setSelectionEnd_pivotOf t vp om
  | update d m =>
    cases h' : t.UpdateSelection d m with
    | none => simp [applyStep, h']
    | some p =>
      simp only [applyStep, h']
      exact updateSelection_pivotOf t d m p.1 p.2 (by rw [h'])

end Terminal

/-! ### Claims -/

namespace Terminal

/-- C1: for every public mutating operation (`SetSelectionAnchor`,
`MultiClickSelection`, `SetSelectionEnd` with or without override mode,
`UpdateSelection`), if a selection is active after the call completes, then
`compare(start, end) ≤ 0` under buffer row-major ordering — given a
well-formed buffer size, the word-boundary contract, and an in-bounds
pivot in the pre-state. -/
theorem C1_selection_ordering (t : Terminal) (hWF : t.buffer.size.WF)
    (hword : t.buffer.WordBoundsHyp t.wordDelimiters)
    (hpivot : t.PivotWF) :
    (∀ vp, (t.SetSelectionAnchor vp).SelInv) ∧
    (∀ vp m, (t.MultiClickSelection vp m).SelInv) ∧
    (∀ vp om, ((t.SetSelectionEnd vp om).1).SelInv) ∧
    (∀ d m t' n, t.UpdateSelection d m = some (t', n) → t'.SelInv) := by
  refine ⟨?_, ?_, ?_, ?_⟩
  · intro vp sel' h'
    rw [setSelectionAnchor_sel] at h'
    injection h' with h''
    subst h''
    rw [setSelectionAnchor_buffer]
    simp [Viewport.compare_self]
  · intro vp m sel' h'
    rw [multiClickSelection_sel] at h'
    injection h' with h''
    subst h''
    rw [multiClickSelection_buffer]
    have hc := convertToBufferCell_inBounds t hWF vp
    have h1 : t.buffer.size.CompareInBounds
        ((({ t with multiClickSelectionMode := m
           } : Terminal).ExpandSelectionAnchors
          (t.ConvertToBufferCell vp, t.ConvertToBufferCell vp)).1)
        (t.ConvertToBufferCell vp) ≤ 0 :=
      expand_fst_le { t with multiClickSelectionMode := m } hword _ _ hc.1
    have h2 : t.buffer.size.CompareInBounds (t.ConvertToBufferCell vp)
        ((({ t with multiClickSelectionMode := m
           } : Terminal).ExpandSelectionAnchors
          (t.ConvertToBufferCell vp, t.ConvertToBufferCell vp)).2) ≤ 0 :=
      expand_snd_ge { t with multiClickSelectionMode := m } hword _ _ hc.2.1
    have ca := Viewport.compare_add t.buffer.size
      ((({ t with multiClickSelectionMode := m
         } : Terminal).ExpandSelectionAnchors
        (t.ConvertToBufferCell vp, t.ConvertToBufferCell vp)).1)
      (t.ConvertToBufferCell vp)
      ((({ t with multiClickSelectionMode := m
         } : Terminal).ExpandSelectionAnchors
        (t.ConvertToBufferCell vp, t.ConvertToBufferCell vp)).2)
    simp only []
    linarith
  · intro vp om
    exact setSelectionEnd_selInv t vp om hWF hword hpivot
  · intro d m t' n h'
    cases hsel : t.selection with
    | none =>
      rw [UpdateSelection, hsel] at h'
      simp at h'
    | some sel =>
      obtain ⟨hsel', hbuf⟩ := updateSelection_sel t sel d m hsel t' n h'
      intro sel2 h2
      rw [hsel'] at h2
      injection h2 with h2'
      subst h2'
      rw [hbuf]
      exact pivotSelection_fst_le t sel.pivot (t.moveTarget sel d m)

/-- Witness for C1: the invariant after a concrete `SetSelectionEnd` on an
active selection of the demo terminal. -/
theorem C1_selection_ordering_witness :
    ((termActive.SetSelectionEnd ⟨2, 2⟩ none).1).SelInv :=
  (C1_selection_ordering termActive ⟨by decide, by decide⟩
      (fun p =>
        ⟨by simp [termActive, termDemo, bufDemo, Viewport.compare_self],
         by simp [termActive, termDemo, bufDemo, Viewport.compare_self]⟩)
      (fun sel h => by
        have h2 : some (⟨⟨5, 2⟩, ⟨10, 2⟩, ⟨5, 2⟩⟩ : SelectionAnchors) =
            some sel := h
        injection h2 with h3
        subst h3
        exact ⟨by decide, by decide, by decide, by decide⟩)).2.2.1 ⟨2, 2⟩ none

/-- C2: the pivot computation pairs the target with the pivot in buffer
order, flagging which side the target landed on; concretely, after
`SetSelectionAnchor((5,2))`, `SetSelectionEnd((10,2))`,
`SetSelectionEnd((2,2))` on the 80-by-24 demo terminal the selection is
`start=(2,2)`, `end=(5,2)`. -/
theorem C2_pivot_ordering :
    (∀ (t : Terminal) (pivot tgt : COORD),
      (t.buffer.size.CompareInBounds tgt pivot ≤ 0 →
        t.PivotSelection pivot tgt = (tgt, pivot, true)) ∧
      (0 < t.buffer.size.CompareInBounds tgt pivot →
        t.PivotSelection pivot tgt = (pivot, tgt, false))) ∧
    (((termDemo.SetSelectionAnchor ⟨5, 2⟩).SetSelectionEnd ⟨10, 2⟩
        none).1.SetSelectionEnd ⟨2, 2⟩ none).1.selection =
      some ⟨⟨2, 2⟩, ⟨5, 2⟩, ⟨5, 2⟩⟩ := by
  refine ⟨?_, by decide⟩
  intro t pivot tgt
  constructor
  · intro h
    simp [PivotSelection, h]
  · intro h
    have h' : ¬ t.buffer.size.CompareInBounds tgt pivot ≤ 0 := not_le.mpr h
    simp [PivotSelection, h']

/-- Witness for C2: the pivot computation evaluated on both sides of a
concrete pivot. -/
theorem C2_pivot_ordering_witness :
    termDemo.PivotSelection ⟨5, 2⟩ ⟨2, 2⟩ = (⟨2, 2⟩, ⟨5, 2⟩, true) ∧
    termDemo.PivotSelection ⟨5, 2⟩ ⟨10, 2⟩ = (⟨5, 2⟩, ⟨10, 2⟩, false) :=
  ⟨(C2_pivot_ordering.1 termDemo ⟨5, 2⟩ ⟨2, 2⟩).1 (by decide),
   (C2_pivot_ordering.1 termDemo ⟨5, 2⟩ ⟨10, 2⟩).2 (by decide)⟩

/-- C3: a `SetSelectionEnd` with an override expansion mode (shift-click)
updates only the side the target landed on with its expanded value and
forces the opposite side back to exactly the pivot; concretely, with
`pivot=(5,2)`, `start=(5,2)`, `end=(10,2)`, the call
`SetSelectionEnd((20,2), Cell)` yields `end=(20,2)` and `start=(5,2)`. -/
theorem C3_override_expansion :
    (∀ (t : Terminal) (sel : SelectionAnchors) (vp : COORD)
        (m : SelectionExpansion), t.selection = some sel →
      (t.buffer.size.CompareInBounds (t.ConvertToBufferCell vp)
          sel.pivot ≤ 0 →
        (t.SetSelectionEnd vp (some m)).1.selection =
          some { sel with
            start := (({ t with multiClickSelectionMode := m
                       } : Terminal).ExpandSelectionAnchors
              (t.ConvertToBufferCell vp, sel.pivot)).1,
            end_ := sel.pivot }) ∧
      (¬ t.buffer.size.CompareInBounds (t.ConvertToBufferCell vp)
          sel.pivot ≤ 0 →
        (t.SetSelectionEnd vp (some m)).1.selection =
          some { sel with
            start := sel.pivot,
            end_ := (({ t with multiClickSelectionMode := m
                      } : Terminal).ExpandSelectionAnchors
              (sel.pivot, t.ConvertToBufferCell vp)).2 })) ∧
    (((termDemo.SetSelectionAnchor ⟨5, 2⟩).SetSelectionEnd ⟨10, 2⟩
        none).1.SetSelectionEnd ⟨20, 2⟩ (some .Cell)).1.selection =
      some ⟨⟨5, 2⟩, ⟨20, 2⟩, ⟨5, 2⟩⟩ := by
  refine ⟨?_, by decide⟩
  intro t sel vp m h
  exact ⟨fun hcmp => setSelectionEnd_override_target_sel t sel vp m h hcmp,
         fun hcmp => setSelectionEnd_override_pivot_sel t sel vp m h hcmp⟩

/-- Witness for C3: shift-click extension on the concrete active terminal
keeps the far side at the pivot. -/
theorem C3_override_expansion_witness :
    (termActive.SetSelectionEnd ⟨20, 2⟩ (some .Cell)).1.selection =
      some { (⟨⟨5, 2⟩, ⟨10, 2⟩, ⟨5, 2⟩⟩ : SelectionAnchors) with
        start := ⟨5, 2⟩,
        end_ := (({ termActive with multiClickSelectionMode := .Cell
                  } : Terminal).ExpandSelectionAnchors
          (⟨5, 2⟩, termActive.ConvertToBufferCell ⟨20, 2⟩)).2 } :=
  (C3_override_expansion.1 termActive ⟨⟨5, 2⟩, ⟨10, 2⟩, ⟨5, 2⟩⟩ ⟨20, 2⟩
    .Cell rfl).2 (by decide)

/-- C4: the pivot is unchanged by any sequence of `SetSelectionEnd` and
`UpdateSelection` calls; only clearing and beginning a new selection can
change it. -/
theorem C4_pivot_stability (steps : List GestureStep) (t : Terminal) :
    (List.foldl applyStep t steps).pivotOf = t.pivotOf := by
  induction steps generalizing t with
  | nil => rfl
  | cons s ss ih =>
    rw [List.foldl_cons, ih, applyStep_pivotOf]

end Terminal

namespace Terminal

/-- C5: after an `UpdateSelection` movement, when the moved endpoint (whose
column is within the viewport columns) lies inside the visible viewport the
scroll offset is unchanged and no notification fires; when its row is above
the viewport top the offset increases by exactly `top - row` with one
notification; when its row is below the viewport bottom the offset
decreases by exactly `row - bottom` with one notification. -/
theorem C5_autoscroll (t : Terminal) (sel : SelectionAnchors)
    (d : SelectionDirection) (m : SelectionExpansion)
    (h : t.selection = some sel)
    (hh : 1 ≤ t.mutableViewportHeight)
    (hx : t.GetVisibleViewport.left ≤ (t.moveTarget sel d m).x ∧
          (t.moveTarget sel d m).x ≤ t.GetVisibleViewport.right) :
    ∃ t' : Terminal, ∃ notified : Bool,
      t.UpdateSelection d m = some (t', notified) ∧
      ((t.GetVisibleViewport.top ≤ (t.moveTarget sel d m).y ∧
        (t.moveTarget sel d m).y ≤ t.GetVisibleViewport.bottom) →
        t'.scrollOffset = t.scrollOffset ∧ notified = false) ∧
      ((t.moveTarget sel d m).y < t.GetVisibleViewport.top →
        t'.scrollOffset = t.scrollOffset +
          (t.GetVisibleViewport.top - (t.moveTarget sel d m).y) ∧
        notified = true) ∧
      (t.GetVisibleViewport.bottom < (t.moveTarget sel d m).y →
        t'.scrollOffset = t.scrollOffset -
          ((t.moveTarget sel d m).y - t.GetVisibleViewport.bottom) ∧
        notified = true) := by
  obtain ⟨hx1, hx2⟩ := hx
  rw [UpdateSelection, h]
  simp only [Option.map_some']
  by_cases hin : t.GetVisibleViewport.IsInBounds (t.moveTarget sel d m) = true
  · rw [if_pos hin]
    refine ⟨_, false, rfl, fun _ => ⟨rfl, rfl⟩, ?_, ?_⟩
    · intro hy
      exfalso
      simp only [Viewport.IsInBounds, decide_eq_true_eq] at hin
      omega
    · intro hy
      exfalso
      simp only [Viewport.IsInBounds, decide_eq_true_eq] at hin
      omega
  · by_cases habove :
      t.GetVisibleViewport.top - (t.moveTarget sel d m).y > 0
    · rw [if_neg hin, if_pos habove]
      refine ⟨_, true, rfl, ?_, ?_, ?_⟩
      · intro hy
        exfalso
        simp only [Viewport.IsInBounds, decide_eq_true_eq] at hin
        omega
      · intro _
        exact ⟨rfl, rfl⟩
      · intro hy
        exfalso
        simp only [GetVisibleViewport] at habove hy
        omega
    · rw [if_neg hin, if_neg habove]
      refine ⟨_, true, rfl, ?_, ?_, ?_⟩
      · intro hy
        exfalso
        simp only [Viewport.IsInBounds, decide_eq_true_eq] at hin
        omega
      · intro hy
        exfalso
        omega
      · intro _
        exact ⟨rfl, rfl⟩

/-- Witness for C5: `UpdateSelection(Down, Viewport)` from the last visible
row of the tall terminal. -/
theorem C5_autoscroll_witness :
    ∃ t' : Terminal, ∃ notified : Bool,
      termTall.UpdateSelection .Down .Viewport = some (t', notified) ∧
      ((termTall.GetVisibleViewport.top ≤
          (termTall.moveTarget ⟨⟨5, 2⟩, ⟨10, 23⟩, ⟨5, 2⟩⟩ .Down .Viewport).y ∧
        (termTall.moveTarget ⟨⟨5, 2⟩, ⟨10, 23⟩, ⟨5, 2⟩⟩ .Down .Viewport).y ≤
          termTall.GetVisibleViewport.bottom) →
        t'.scrollOffset = termTall.scrollOffset ∧ notified = false) ∧
      ((termTall.moveTarget ⟨⟨5, 2⟩, ⟨10, 23⟩, ⟨5, 2⟩⟩ .Down .Viewport).y <
          termTall.GetVisibleViewport.top →
        t'.scrollOffset = termTall.scrollOffset +
          (termTall.GetVisibleViewport.top -
            (termTall.moveTarget ⟨⟨5, 2⟩, ⟨10, 23⟩, ⟨5, 2⟩⟩
              .Down .Viewport).y) ∧
        notified = true) ∧
      (termTall.GetVisibleViewport.bottom <
          (termTall.moveTarget ⟨⟨5, 2⟩, ⟨10, 23⟩, ⟨5, 2⟩⟩ .Down .Viewport).y →
        t'.scrollOffset = termTall.scrollOffset -
          ((termTall.moveTarget ⟨⟨5, 2⟩, ⟨10, 23⟩, ⟨5, 2⟩⟩
              .Down .Viewport).y -
            termTall.GetVisibleViewport.bottom) ∧
        notified = true) :=
  C5_autoscroll termTall ⟨⟨5, 2⟩, ⟨10, 23⟩, ⟨5, 2⟩⟩ .Down .Viewport rfl
    (by decide) (by refine ⟨?_, ?_⟩ <;> decide)

end Terminal

namespace Terminal

/-- C6 counterexample: at the bottom-right corner of the buffer, an
`UpdateSelection(Right, Word)` call whose moving endpoint is not before the
pivot and already sits at its word end leaves the endpoint on the very same
boundary (the increment saturates), contradicting the claim that it never
remains on the same boundary. -/
theorem C6_word_right_counterexample :
    (¬ termStall.buffer.size.CompareInBounds ⟨1, 1⟩ ⟨1, 1⟩ < 0) ∧
    termStall.buffer.GetWordEnd ⟨1, 1⟩ termStall.wordDelimiters = ⟨1, 1⟩ ∧
    termStall.MoveByWord ⟨1, 1⟩ .Right ⟨1, 1⟩ = ⟨1, 1⟩ ∧
    (termStall.UpdateSelection .Right .Word).map
        (fun p => (p.1.selection, p.2)) =
      some (some ⟨⟨1, 1⟩, ⟨1, 1⟩, ⟨1, 1⟩⟩, false) := by
  decide

/-- C6 (amended): a `_MoveByWord(Right)` step whose endpoint is not before
the pivot and sits exactly at its word end advances to the word end of the
cell one to the right; whenever the endpoint is not at the bottom-right
buffer corner (and the word-boundary contract holds), the result lies
strictly after the starting boundary. -/
theorem C6_word_right_advance (t : Terminal) (pivot pos : COORD)
    (hword : t.buffer.WordBoundsHyp t.wordDelimiters)
    (hnb : ¬ t.buffer.size.CompareInBounds pos pivot < 0)
    (hend : t.buffer.GetWordEnd pos t.wordDelimiters = pos)
    (hin : t.buffer.size.InBounds pos)
    (hcorner : ¬(pos.x = t.buffer.size.right ∧
      pos.y = t.buffer.size.bottom)) :
    t.MoveByWord pivot .Right pos =
      t.buffer.GetWordEnd (t.buffer.size.IncrementInBounds pos)
        t.wordDelimiters ∧
    t.buffer.size.CompareInBounds pos (t.MoveByWord pivot .Right pos) < 0 := by
  have hmove : t.MoveByWord pivot .Right pos =
      t.buffer.GetWordEnd (t.buffer.size.IncrementInBounds pos)
        t.wordDelimiters := by
    rw [MoveByWord]
    simp [hnb, hend]
  refine ⟨hmove, ?_⟩
  rw [hmove]
  have h1 := Viewport.increment_lt t.buffer.size pos hin hcorner
  have h2 := (hword (t.buffer.size.IncrementInBounds pos)).2
  have ca := Viewport.compare_add t.buffer.size pos
    (t.buffer.size.IncrementInBounds pos)
    (t.buffer.GetWordEnd (t.buffer.size.IncrementInBounds pos)
      t.wordDelimiters)
  linarith

/-- Witness for C6 (amended): from cell (0,0) of the 2-by-2 buffer a Right
word move strictly advances. -/
theorem C6_word_right_advance_witness :
    termStall.MoveByWord ⟨0, 0⟩ .Right ⟨0, 0⟩ =
      termStall.buffer.GetWordEnd
        (termStall.buffer.size.IncrementInBounds ⟨0, 0⟩)
        termStall.wordDelimiters ∧
    termStall.buffer.size.CompareInBounds ⟨0, 0⟩
      (termStall.MoveByWord ⟨0, 0⟩ .Right ⟨0, 0⟩) < 0 :=
  C6_word_right_advance termStall ⟨0, 0⟩ ⟨0, 0⟩
    (fun p =>
      ⟨by simp [termStall, bufTiny, bufDemo, Viewport.compare_self],
       by simp [termStall, bufTiny, bufDemo, Viewport.compare_self]⟩)
    (by decide) (by decide)
    ⟨by decide, by decide, by decide, by decide⟩ (by decide)

/-- C7: `SetSelectionEnd` called while no selection is active performs no
mutation of any state, raises no error (the operation is total and returns
the state unchanged), and records the illegal-state diagnostic. -/
theorem C7_inactive_guard (t : Terminal) (vp : COORD)
    (om : Option SelectionExpansion) (h : t.IsSelectionActive = false) :
    t.SetSelectionEnd vp om = (t, true) := by
  cases hsel : t.selection with
  | none => simp [SetSelectionEnd, hsel]
  | some sel =>
    rw [IsSelectionActive, hsel] at h
    simp at h

/-- Witness for C7: the guard on the selection-free demo terminal. -/
theorem C7_inactive_guard_witness :
    termDemo.SetSelectionEnd ⟨3, 3⟩ none = (termDemo, true) ∧
    termDemo.IsSelectionActive = false :=
  ⟨C7_inactive_guard termDemo ⟨3, 3⟩ none rfl, rfl⟩

/-- C8: the selection-rectangle query returns the empty sequence when no
selection is active, and also when the rectangle computation of the buffer
fails, instead of propagating the error; the query itself is a pure
function of the state. -/
theorem C8_selection_rects_guard (t : Terminal) :
    (t.selection = none → t.GetSelectionRects = []) ∧
    (∀ sel err, t.selection = some sel →
      t.buffer.GetTextRects sel.start sel.end_ t.blockSelection false =
        Except.error err →
      t.GetSelectionRects = []) := by
  constructor
  · intro h
    simp [GetSelectionRects, h]
  · intro sel err h herr
    simp [GetSelectionRects, h, herr]

/-- Witness for C8: the empty result on the selection-free terminal and on
the terminal whose buffer rectangle computation fails. -/
theorem C8_selection_rects_guard_witness :
    termDemo.GetSelectionRects = [] ∧ termErr.GetSelectionRects = [] :=
  ⟨(C8_selection_rects_guard termDemo).1 rfl,
   (C8_selection_rects_guard termErr).2 ⟨⟨0, 0⟩, ⟨3, 0⟩, ⟨0, 0⟩⟩
     "GetTextRects failure" rfl rfl⟩

/-- C9: text extraction passes to the buffer exactly
`includeLineBreaks = !singleLine || blockSelection`,
`trimTrailingWhitespace = !singleLine && (!blockSelection ||
trimBlockSelection)` and `preserveWrappedRowStructure = blockSelection`. -/
theorem C9_extraction_flags (t : Terminal) (singleLine : Bool) :
    t.RetrieveSelectedTextFromBuffer singleLine =
      t.buffer.GetText (!singleLine || t.blockSelection)
        (!singleLine && (!t.blockSelection || t.trimBlockSelection))
        t.GetSelectionRects t.blockSelection := rfl

/-- C10: `UpdateSelection` and `MovingStart` have no guard for the
no-selection case; under the hypothesis that a selection is active, the
none branch of the optional access is unreachable and both operations are
well-defined. -/
theorem C10_update_requires_active (t : Terminal) (d : SelectionDirection)
    (m : SelectionExpansion) (h : t.IsSelectionActive = true) :
    (t.UpdateSelection d m).isSome = true ∧ t.MovingStart.isSome = true := by
  rw [IsSelectionActive] at h
  refine ⟨?_, ?_⟩
  · rw [updateSelection_isSome, h]
  · simp only [MovingStart, Option.isSome_map']
    exact h

/-- Witness for C10: both operations are defined on the concrete active
terminal. -/
theorem C10_update_requires_active_witness :
    (termStall.UpdateSelection .Left .Cell).isSome = true ∧
    termStall.MovingStart.isSome = true :=
  C10_update_requires_active termStall .Left .Cell rfl

end Terminal

end TerminalCore
